import Mathlib

/-!
Verification of the dicedb-rs client session and value-coding layer.

The definitions below are a shallow embedding of the Rust sources:
`src/commands.rs` (value model, command encoding, response decoding),
`src/stream.rs` (reconnect / send / receive policies),
`src/commandstream.rs` and `src/watchstream.rs` (handshake, watch teardown).

Machine integers are modelled as `Int`/`Nat` with explicit two's-complement
wrapping where the Rust code can wrap (`as i64`).  Rust `f64` values are
modelled by the rational number they denote (every finite IEEE-754 double is
a dyadic rational); IEEE widening from `f32` to `f64` is exact, so it is the
identity on the denoted rational.  Fallible operations return `Except`.
Socket handles are opaque numbers; blocking I/O operations are parameters
(functions from attempt index to outcome) so that the control flow of the
Rust code becomes explicit state passing.
-/

/-- Model of `std::io::ErrorKind`; only `Other` is produced by this crate. -/
inductive IoErrorKind where
  | other
deriving DecidableEq, Repr

/-- Model of `std::io::Error`: a kind plus its message. -/
structure IoErr where
  kind : IoErrorKind
  msg : String
deriving DecidableEq, Repr

/-- Model of `prost::DecodeError` (an opaque description string). -/
structure PDecodeError where
  description : String
deriving DecidableEq, Repr

/-- Mirrors `errors.rs` `CommandError`. -/
inductive CommandError where
  | ServerError (s : String)
  | DecodeError (e : PDecodeError)
  | WatchValueExpectationError (s : String)
deriving DecidableEq, Repr

/-- Mirrors `errors.rs` `StreamError`. -/
inductive StreamError where
  | IoError (e : IoErr)
  | DecodeError (e : PDecodeError)
  | CommandError (e : CommandError)
deriving DecidableEq, Repr

/-- Decidable equality for `Except` results, used to evaluate concrete
outcomes in witnesses. -/
instance instDecEqExcept {ε α : Type} [DecidableEq ε] [DecidableEq α] :
    DecidableEq (Except ε α) := fun x y =>
  match x, y with
  | .ok a, .ok b =>
    if h : a = b then .isTrue (by rw [h]) else .isFalse (by simp [h])
  | .error a, .error b =>
    if h : a = b then .isTrue (by rw [h]) else .isFalse (by simp [h])
  | .ok _, .error _ => .isFalse (by simp)
  | .error _, .ok _ => .isFalse (by simp)

/-- Mirrors `commands.rs` `ScalarValue`.  `f64` is modelled as `Rat`. -/
inductive ScalarValue where
  | VStr (s : String)
  | VInt (i : Int)
  | VFloat (f : Rat)
  | VBool (b : Bool)
  | VNull
deriving DecidableEq, Repr

/-- Mirrors `commands.rs` `SetInput`. -/
inductive SetInput where
  | Str (s : String)
  | Int (i : Int)
  | Float (f : Rat)
deriving DecidableEq, Repr

/-- Mirrors `impl Into<ScalarValue> for SetInput`. -/
def SetInput.intoScalar : SetInput → ScalarValue
  | .Str s => .VStr s
  | .Int i => .VInt i
  | .Float f => .VFloat f

/-- Rust `as i64` applied to any integer value (of any fixed-width source
type): reduce modulo 2^64 and reinterpret into the signed 64-bit range. -/
def as_i64 (v : Int) : Int :=
  let m := v % (2 : Int) ^ 64
  if m < (2 : Int) ^ 63 then m else m - (2 : Int) ^ 64

/-- Mirrors the `impl_vint_value_for_int!` macro in `commands.rs`: every
`From<iN>`/`From<uN>` impl for `ScalarValue` is `ScalarValue::VInt(value as i64)`.
The argument is the mathematical value of the source-typed integer. -/
def ScalarValue.fromIntValue (v : Int) : ScalarValue := .VInt (as_i64 v)

/-- Mirrors the `impl_vint_value_for_float!` macro in `commands.rs`:
`From<f32>`/`From<f64>` are `ScalarValue::VFloat(value as f64)`.  IEEE
widening binary32 → binary64 is exact, hence the identity on the denoted
rational. -/
def ScalarValue.fromFloatValue (q : Rat) : ScalarValue := .VFloat q

/-- Decimal digits of the fractional part `r / d` (with `r < d`), by long
division; terminates (exactly) for the dyadic rationals denoted by floats. -/
def fracDigits : Nat → Nat → Nat → String
  | 0, _, _ => ""
  | _, 0, _ => ""
  | fuel + 1, r, d =>
    let r10 := r * 10
    toString (r10 / d) ++ fracDigits fuel (r10 % d) d

/-- Model of Rust `Display for f64` (`f.to_string()`): the shortest decimal
string that round-trips.  On a dyadic rational that rendering is the exact
terminating decimal expansion with no trailing zeros; in particular an
integer-valued float is printed with no decimal point (`1.0` displays as
`"1"`). -/
def rustF64Display (q : Rat) : String :=
  let sign := if q < 0 then "-" else ""
  let n := q.num.natAbs
  let d := q.den
  if n % d = 0 then sign ++ toString (n / d)
  else sign ++ toString (n / d) ++ "." ++ fracDigits 1200 (n % d) d

/-- Model of Rust `Debug for f64` (`{:?}`): like `Display`, except an
integer-valued float keeps a trailing `.0`. -/
def rustF64Debug (q : Rat) : String :=
  if q.den = 1 then toString q.num ++ ".0" else rustF64Display q

/-- Escaping of one character as in Rust `Debug for str`. -/
def rustCharEscape (c : Char) : String :=
  if c = Char.ofNat 34 then String.mk [Char.ofNat 92, Char.ofNat 34]
  else if c = Char.ofNat 92 then String.mk [Char.ofNat 92, Char.ofNat 92]
  else if c = Char.ofNat 10 then String.mk [Char.ofNat 92, Char.ofNat 110]
  else if c = Char.ofNat 13 then String.mk [Char.ofNat 92, Char.ofNat 114]
  else if c = Char.ofNat 9 then String.mk [Char.ofNat 92, Char.ofNat 116]
  else String.singleton c

/-- Model of Rust `Debug for String`: quoted, with escapes. -/
def rustDebugString (s : String) : String :=
  String.singleton (Char.ofNat 34) ++ String.join (s.toList.map rustCharEscape)
    ++ String.singleton (Char.ofNat 34)

/-- Model of the derived `Debug` for `ScalarValue` (used by the handshake
error message `format!("Handshake error: {:?}", value)`). -/
def ScalarValue.rustDebug : ScalarValue → String
  | .VStr s => "VStr(" ++ rustDebugString s ++ ")"
  | .VInt i => "VInt(" ++ toString i ++ ")"
  | .VFloat q => "VFloat(" ++ rustF64Debug q ++ ")"
  | .VBool b => "VBool(" ++ (if b then "true" else "false") ++ ")"
  | .VNull => "VNull"

/-- Mirrors `impl AsArg for ScalarValue`. -/
def ScalarValue.as_arg : ScalarValue → String
  | .VStr s => s
  | .VInt i => toString i
  | .VFloat f => rustF64Display f
  | .VBool b => if b then "true" else "false"
  | .VNull => ""

/-- Mirrors `impl AsArg for SetInput`. -/
def SetInput.as_arg : SetInput → String
  | .Str s => s
  | .Int i => toString i
  | .Float f => rustF64Display f

/-- Mirrors `commands.rs` `ExpireOption`. -/
inductive ExpireOption where
  | NX
  | XX
  | None
deriving DecidableEq, Repr

/-- Mirrors `commands.rs` `ExpireAtOption`. -/
inductive ExpireAtOption where
  | NX
  | XX
  | GT
  | LT
  | None
deriving DecidableEq, Repr

/-- Mirrors `impl AsArg for ExpireAtOption`. -/
def ExpireAtOption.as_arg : ExpireAtOption → String
  | .NX => "NX"
  | .XX => "XX"
  | .GT => "GT"
  | .LT => "LT"
  | .None => ""

/-- Mirrors `commands.rs` `GetexOption` (`u64` payloads as `Nat`). -/
inductive GetexOption where
  | EX (seconds : Nat)
  | PX (milliseconds : Nat)
  | EXAT (timestamp : Nat)
  | PXAT (timestamp : Nat)
  | PERSIST
deriving DecidableEq, Repr

/-- Mirrors `impl AsArgs for GetexOption`. -/
def GetexOption.as_args : GetexOption → List String
  | .EX seconds => ["EX", toString seconds]
  | .PX milliseconds => ["PX", toString milliseconds]
  | .EXAT timestamp => ["EXAT", toString timestamp]
  | .PXAT timestamp => ["PXAT", toString timestamp]
  | .PERSIST => ["PERSIST"]

/-- Mirrors `commands.rs` `SetOption` (`u64` payloads as `Nat`). -/
inductive SetOption where
  | EX (seconds : Nat)
  | PX (milliseconds : Nat)
  | EXAT (timestamp : Nat)
  | PXAT (timestamp : Nat)
  | XX
  | NX
  | KEEPTTL
  | None
deriving DecidableEq, Repr

/-- Mirrors `impl AsArgs for SetOption`. -/
def SetOption.as_args : SetOption → List String
  | .EX seconds => ["EX", toString seconds]
  | .PX milliseconds => ["PX", toString milliseconds]
  | .EXAT timestamp => ["EXAT", toString timestamp]
  | .PXAT timestamp => ["PXAT", toString timestamp]
  | .XX => ["XX"]
  | .NX => ["NX"]
  | .KEEPTTL => ["KEEPTTL"]
  | .None => []

/-- Mirrors `commands.rs` `ExecutionMode`. -/
inductive ExecutionMode where
  | Command
  | Watch
deriving DecidableEq, Repr

/-- Mirrors `impl AsArg for ExecutionMode`. -/
def ExecutionMode.as_arg : ExecutionMode → String
  | .Command => "command"
  | .Watch => "watch"

/-- Mirrors `commands.rs` `Command` (`i64` operands as `Int`). -/
inductive Command where
  | DECR (key : String)
  | DECRBY (key : String) (delta : Int)
  | DEL (keys : List String)
  | ECHO (message : String)
  | EXISTS (key : String) (additional_keys : List String)
  | EXPIRE (key : String) (seconds : Int) (option : ExpireOption)
  | EXPIREAT (key : String) (timestamp : Int) (option : ExpireAtOption)
  | EXPIRETIME (key : String)
  | FLUSHDB
  | GET (key : String)
  | GETDEL (key : String)
  | GETEX (key : String) (ex : GetexOption)
  | HSET (key : String) (fields : List (String × String))
  | HGET (key : String) (field : String)
  | HGETALL (key : String)
  | GETWATCH (key : String)
  | HANDSHAKE (client_id : String) (execution_mode : ExecutionMode)
  | INCR (key : String)
  | INCRBY (key : String) (delta : Int)
  | PING
  | SET (key : String) (value : SetInput) (option : SetOption) (get : Bool)
  | TTL (key : String)
  | TYPE (key : String)
  | UNWATCH (key : String)
deriving DecidableEq, Repr

/-- Mirrors the generated `wire::Command` message: an operation name plus an
ordered argument list. -/
structure WireCommand where
  cmd : String
  args : List String
deriving DecidableEq, Repr

/-- Mirrors `impl Into<wire::Command> for Command` in `commands.rs`. -/
def Command.intoWire : Command → WireCommand
  | .DECR key => ⟨"DECR", [key]⟩
  | .DECRBY key delta => ⟨"DECRBY", [key, toString delta]⟩
  | .DEL keys => ⟨"DEL", keys⟩
  | .ECHO message => ⟨"ECHO", [message]⟩
  | .EXISTS key keys => ⟨"EXISTS", [key] ++ keys⟩
  | .EXPIRE key seconds option =>
      ⟨"EXPIRE", [key, toString seconds] ++
        (match option with
         | .NX => ["NX"]
         | .XX => ["XX"]
         | .None => [])⟩
  | .EXPIREAT key timestamp option =>
      ⟨"EXPIREAT", [key, toString timestamp] ++
        (match option with
         | .None => []
         | o => [o.as_arg])⟩
  | .EXPIRETIME key => ⟨"EXPIRETIME", [key]⟩
  | .FLUSHDB => ⟨"FLUSHDB", []⟩
  | .GET key => ⟨"GET", [key]⟩
  | .GETDEL key => ⟨"GETDEL", [key]⟩
  | .GETEX key ex => ⟨"GETEX", [key] ++ ex.as_args⟩
  | .HSET key fields =>
      ⟨"HSET", [key] ++ fields.foldr (fun fv acc => [fv.1, fv.2] ++ acc) []⟩
  | .HGET key field => ⟨"HGET", [key, field]⟩
  | .HGETALL key => ⟨"HGETALL", [key]⟩
  | .GETWATCH key => ⟨"GET.WATCH", [key]⟩
  | .HANDSHAKE client_id execution_mode =>
      ⟨"HANDSHAKE", [client_id, execution_mode.as_arg]⟩
  | .INCR key => ⟨"INCR", [key]⟩
  | .INCRBY key delta => ⟨"INCRBY", [key, toString delta]⟩
  | .PING => ⟨"PING", []⟩
  | .SET key value option get =>
      ⟨"SET", [key, (value.intoScalar).as_arg] ++ option.as_args ++
        (if get then ["GET"] else [])⟩
  | .TTL key => ⟨"TTL", [key]⟩
  | .TYPE key => ⟨"TYPE", [key]⟩
  | .UNWATCH key => ⟨"UNWATCH", [key]⟩

/-- One step of UTF-8 decoding (WHATWG ranges): returns the decoded character
(or `none` for an invalid sequence) and the number of bytes consumed (the
maximal valid prefix, at least one byte). -/
def utf8DecodeOne (bs : List Nat) : Option Char × Nat :=
  match bs with
  | [] => (none, 1)
  | b :: rest =>
    if b < 128 then (some (Char.ofNat b), 1)
    else if b < 194 then (none, 1)
    else if b < 224 then
      match rest with
      | c1 :: _ =>
        if 128 ≤ c1 ∧ c1 < 192 then
          (some (Char.ofNat ((b - 192) * 64 + (c1 - 128))), 2)
        else (none, 1)
      | [] => (none, 1)
    else if b < 240 then
      let lo := if b = 224 then 160 else 128
      let hi := if b = 237 then 159 else 191
      match rest with
      | c1 :: rest2 =>
        if lo ≤ c1 ∧ c1 ≤ hi then
          match rest2 with
          | c2 :: _ =>
            if 128 ≤ c2 ∧ c2 < 192 then
              (some (Char.ofNat ((b - 224) * 4096 + (c1 - 128) * 64 + (c2 - 128))), 3)
            else (none, 2)
          | [] => (none, 2)
        else (none, 1)
      | [] => (none, 1)
    else if b < 245 then
      let lo := if b = 240 then 144 else 128
      let hi := if b = 244 then 143 else 191
      match rest with
      | c1 :: rest2 =>
        if lo ≤ c1 ∧ c1 ≤ hi then
          match rest2 with
          | c2 :: rest3 =>
            if 128 ≤ c2 ∧ c2 < 192 then
              match rest3 with
              | c3 :: _ =>
                if 128 ≤ c3 ∧ c3 < 192 then
                  (some (Char.ofNat
                    ((b - 240) * 262144 + (c1 - 128) * 4096 + (c2 - 128) * 64 + (c3 - 128))), 4)
                else (none, 3)
              | [] => (none, 3)
            else (none, 2)
          | [] => (none, 2)
        else (none, 1)
      | [] => (none, 1)
    else (none, 1)

/-- Lossy UTF-8 decoding: invalid sequences become U+FFFD.  Models
`String::from_utf8_lossy` (`commands.rs` uses it for `VBytes` payloads). -/
def utf8LossyAux : Nat → List Nat → String
  | 0, _ => ""
  | _, [] => ""
  | fuel + 1, bs =>
    let step := utf8DecodeOne bs
    let ch := match step.1 with
      | some c => c
      | none => Char.ofNat 65533
    String.singleton ch ++ utf8LossyAux fuel (bs.drop step.2)

/-- Model of `String::from_utf8_lossy(..).to_string()`. -/
def fromUtf8Lossy (bs : List Nat) : String := utf8LossyAux bs.length bs

/-- Strict UTF-8 decoding; `none` on any invalid sequence.  Models the UTF-8
validation prost performs on protobuf `string` fields. -/
def utf8StrictAux : Nat → List Nat → Option String
  | 0, _ => some ""
  | _, [] => some ""
  | fuel + 1, bs =>
    match utf8DecodeOne bs with
    | (some c, k) =>
      match utf8StrictAux fuel (bs.drop k) with
      | some s => some (String.singleton c ++ s)
      | none => none
    | (none, _) => none

/-- Strict UTF-8 decoding of a whole byte list. -/
def utf8DecodeStrict (bs : List Nat) : Option String := utf8StrictAux bs.length bs

/-- The rational denoted by a 64-bit IEEE-754 bit pattern.  Non-finite
patterns (exponent 2047) are outside the model and map to 0; no claim in
this development touches them. -/
def f64BitsToRat (bits : Nat) : Rat :=
  let n := bits % 2 ^ 64
  let sign : Rat := if n / 2 ^ 63 = 1 then -1 else 1
  let e := (n / 2 ^ 52) % 2 ^ 11
  let m := n % 2 ^ 52
  let mantissa : Rat := ((2 ^ 52 + m : Nat) : Rat)
  if e = 0 then sign * ((m : Nat) : Rat) / ((2 : Rat) ^ (1074 : Nat))
  else if e = 2047 then 0
  else if 1075 ≤ e then sign * mantissa * (2 : Rat) ^ (e - 1075 : Nat)
  else sign * mantissa / ((2 : Rat) ^ (1075 - e : Nat))

/-- Little-endian accumulation of a byte list into a natural number. -/
def leNat (bs : List Nat) : Nat := bs.foldr (fun b acc => acc * 256 + b % 256) 0

/-- Modelled from the spec: the kind of a `prost_types::Value` found in the
response's `attrs` metadata map (the `prost-types` crate and the generated
protobuf schema are not part of `src/`).  Nested struct/list payloads are
retained as raw bytes: the client only ever distinguishes string kinds from
non-string kinds. -/
inductive ProstKind where
  | nullValue (n : Nat)
  | numberValue (q : Rat)
  | stringValue (s : String)
  | boolValue (b : Bool)
  | structValue (raw : List Nat)
  | listValue (raw : List Nat)
deriving DecidableEq, Repr

/-- Modelled from the spec: the `attrs` metadata map of a response
(`prost_types::Struct`), flattened to an association list from field name to
optional value kind (`Value.kind` is optional in prost). -/
structure ProstStruct where
  fields : List (String × Option ProstKind)
deriving DecidableEq, Repr

/-- Mirrors the generated `wire::response::Value` oneof: the tagged scalar
payload of a response frame. -/
inductive WireValue where
  | VNil (b : Bool)
  | VInt (i : Int)
  | VStr (s : String)
  | VFloat (f : Rat)
  | VBytes (b : List Nat)
deriving DecidableEq, Repr

/-- Mirrors `impl Into<ScalarValue> for wire::response::Value` in
`commands.rs`: `VNil` maps to `VNull`, `VBytes` is decoded UTF-8-lossily. -/
def WireValue.intoScalar : WireValue → ScalarValue
  | .VNil _ => .VNull
  | .VInt i => .VInt i
  | .VStr s => .VStr s
  | .VFloat f => .VFloat f
  | .VBytes b => .VStr (fromUtf8Lossy b)

/-- Modelled from the spec: the response frame (`wire::Response`): an error
string (empty means success), an optional tagged scalar payload, optional
`attrs` metadata, and a string-to-string map for multi-field reads. -/
structure Response where
  err : String
  value : Option WireValue
  attrs : Option ProstStruct
  vSsMap : List (String × String)
deriving DecidableEq, Repr

/-- The default (all-fields-absent) response frame, as protobuf decoding of
an empty buffer produces. -/
def Response.default : Response := ⟨"", none, none, []⟩

/-- Payload of one protobuf record, by wire type. -/
inductive RecordPayload where
  | varint (n : Nat)
  | fixed64 (n : Nat)
  | lenBytes (bs : List Nat)
  | fixed32 (n : Nat)
deriving DecidableEq, Repr

/-- LEB128 varint: value and remaining bytes; `none` on truncation or an
over-long (more than 10 byte) encoding. -/
def parseVarint : Nat → List Nat → Option (Nat × List Nat)
  | 0, _ => none
  | _, [] => none
  | fuel + 1, b :: rest =>
    if b < 128 then some (b, rest)
    else
      match parseVarint fuel rest with
      | some (v, r) => some ((b - 128) + 128 * v, r)
      | none => none

/-- Splits off the first `n` bytes; `none` if fewer are available. -/
def takeBytes (n : Nat) (bs : List Nat) : Option (List Nat × List Nat) :=
  if n ≤ bs.length then some (bs.take n, bs.drop n) else none

/-- Parses one protobuf record (tag plus payload). -/
def parseRecord (bs : List Nat) : Option ((Nat × RecordPayload) × List Nat) :=
  match parseVarint 10 bs with
  | none => none
  | some (tag, rest) =>
    let fieldNum := tag / 8
    let wireType := tag % 8
    if fieldNum = 0 then none
    else if wireType = 0 then
      match parseVarint 10 rest with
      | some (n, r) => some ((fieldNum, .varint n), r)
      | none => none
    else if wireType = 1 then
      match takeBytes 8 rest with
      | some (chunk, r) => some ((fieldNum, .fixed64 (leNat chunk)), r)
      | none => none
    else if wireType = 2 then
      match parseVarint 10 rest with
      | some (len, r2) =>
        match takeBytes len r2 with
        | some (chunk, r3) => some ((fieldNum, .lenBytes chunk), r3)
        | none => none
      | none => none
    else if wireType = 5 then
      match takeBytes 4 rest with
      | some (chunk, r) => some ((fieldNum, .fixed32 (leNat chunk)), r)
      | none => none
    else none

/-- Parses a whole buffer into its protobuf records. -/
def parseRecords : Nat → List Nat → Option (List (Nat × RecordPayload))
  | _, [] => some []
  | 0, _ => none
  | fuel + 1, bs =>
    match parseRecord bs with
    | none => none
    | some (rec, rest) =>
      match parseRecords fuel rest with
      | some recs => some (rec :: recs)
      | none => none

/-- Insert (replacing an existing binding) into an association list; models
map-field merge semantics where a later entry for the same key wins. -/
def mapInsert (l : List (String × α)) (k : String) (v : α) : List (String × α) :=
  match l with
  | [] => [(k, v)]
  | (k0, v0) :: rest =>
    if k0 = k then (k, v) :: rest else (k0, v0) :: mapInsert rest k v

/-- Folds the records of a `prost_types::Value` message body into its oneof
kind (last occurrence wins; unknown fields are skipped; a known field with
the wrong wire type, or an invalid string, is a decode failure). -/
def valueKindFromRecords : List (Nat × RecordPayload) → Option ProstKind → Option (Option ProstKind)
  | [], acc => some acc
  | (fieldNum, p) :: rest, acc =>
    if fieldNum = 1 then
      match p with
      | .varint n => valueKindFromRecords rest (some (.nullValue n))
      | _ => none
    else if fieldNum = 2 then
      match p with
      | .fixed64 n => valueKindFromRecords rest (some (.numberValue (f64BitsToRat n)))
      | _ => none
    else if fieldNum = 3 then
      match p with
      | .lenBytes sb =>
        match utf8DecodeStrict sb with
        | some s => valueKindFromRecords rest (some (.stringValue s))
        | none => none
      | _ => none
    else if fieldNum = 4 then
      match p with
      | .varint n => valueKindFromRecords rest (some (.boolValue (n != 0)))
      | _ => none
    else if fieldNum = 5 then
      match p with
      | .lenBytes sb => valueKindFromRecords rest (some (.structValue sb))
      | _ => none
    else if fieldNum = 6 then
      match p with
      | .lenBytes sb => valueKindFromRecords rest (some (.listValue sb))
      | _ => none
    else valueKindFromRecords rest acc

/-- Parses a `prost_types::Value` message body. -/
def parseValueMsg (bs : List Nat) : Option (Option ProstKind) :=
  match parseRecords (bs.length + 1) bs with
  | none => none
  | some recs => valueKindFromRecords recs none

/-- Folds the records of one `attrs` map-entry message (`1`: string key,
`2`: `Value` message) into a key/kind pair. -/
def attrEntryFromRecords : List (Nat × RecordPayload) → String × Option ProstKind →
    Option (String × Option ProstKind)
  | [], acc => some acc
  | (fieldNum, p) :: rest, acc =>
    if fieldNum = 1 then
      match p with
      | .lenBytes kb =>
        match utf8DecodeStrict kb with
        | some k => attrEntryFromRecords rest (k, acc.2)
        | none => none
      | _ => none
    else if fieldNum = 2 then
      match p with
      | .lenBytes vb =>
        match parseValueMsg vb with
        | some kind => attrEntryFromRecords rest (acc.1, kind)
        | none => none
      | _ => none
    else attrEntryFromRecords rest acc

/-- Parses one `attrs` map-entry message body. -/
def parseAttrEntry (bs : List Nat) : Option (String × Option ProstKind) :=
  match parseRecords (bs.length + 1) bs with
  | none => none
  | some recs => attrEntryFromRecords recs ("", none)

/-- Folds the records of a `prost_types::Struct` message body (field `1`:
repeated map entries) into its field map. -/
def structFromRecords : List (Nat × RecordPayload) → List (String × Option ProstKind) →
    Option (List (String × Option ProstKind))
  | [], acc => some acc
  | (fieldNum, p) :: rest, acc =>
    if fieldNum = 1 then
      match p with
      | .lenBytes eb =>
        match parseAttrEntry eb with
        | some (k, v) => structFromRecords rest (mapInsert acc k v)
        | none => none
      | _ => none
    else structFromRecords rest acc

/-- Parses a `prost_types::Struct` message body, merging into `acc`
(protobuf merges repeated occurrences of an embedded message field). -/
def parseStructMsg (bs : List Nat) (acc : List (String × Option ProstKind)) :
    Option (List (String × Option ProstKind)) :=
  match parseRecords (bs.length + 1) bs with
  | none => none
  | some recs => structFromRecords recs acc

/-- Folds one `v_ss_map` entry message (`1`: string key, `2`: string value)
into a key/value pair. -/
def ssEntryFromRecords : List (Nat × RecordPayload) → String × String → Option (String × String)
  | [], acc => some acc
  | (fieldNum, p) :: rest, acc =>
    if fieldNum = 1 then
      match p with
      | .lenBytes kb =>
        match utf8DecodeStrict kb with
        | some k => ssEntryFromRecords rest (k, acc.2)
        | none => none
      | _ => none
    else if fieldNum = 2 then
      match p with
      | .lenBytes vb =>
        match utf8DecodeStrict vb with
        | some v => ssEntryFromRecords rest (acc.1, v)
        | none => none
      | _ => none
    else ssEntryFromRecords rest acc

/-- Parses one `v_ss_map` entry message body. -/
def parseSsEntry (bs : List Nat) : Option (String × String) :=
  match parseRecords (bs.length + 1) bs with
  | none => none
  | some recs => ssEntryFromRecords recs ("", "")

/-- Modelled from the spec: folds the records of a `wire::Response` message
into the frame.  Field numbers (the `.proto` schema is generated code not
under `src/`): `1` err, `2`–`6` the value oneof (nil, int64, string, double,
bytes), `7` attrs, `9` the string-to-string map.  Unknown fields are
skipped; a known field with the wrong wire type is a decode failure. -/
def responseFromRecords : List (Nat × RecordPayload) → Response → Option Response
  | [], acc => some acc
  | (fieldNum, p) :: rest, acc =>
    if fieldNum = 1 then
      match p with
      | .lenBytes sb =>
        match utf8DecodeStrict sb with
        | some s => responseFromRecords rest { acc with err := s }
        | none => none
      | _ => none
    else if fieldNum = 2 then
      match p with
      | .varint n => responseFromRecords rest { acc with value := some (.VNil (n != 0)) }
      | _ => none
    else if fieldNum = 3 then
      match p with
      | .varint n => responseFromRecords rest { acc with value := some (.VInt (as_i64 n)) }
      | _ => none
    else if fieldNum = 4 then
      match p with
      | .lenBytes sb =>
        match utf8DecodeStrict sb with
        | some s => responseFromRecords rest { acc with value := some (.VStr s) }
        | none => none
      | _ => none
    else if fieldNum = 5 then
      match p with
      | .fixed64 n => responseFromRecords rest { acc with value := some (.VFloat (f64BitsToRat n)) }
      | _ => none
    else if fieldNum = 6 then
      match p with
      | .lenBytes sb => responseFromRecords rest { acc with value := some (.VBytes sb) }
      | _ => none
    else if fieldNum = 7 then
      match p with
      | .lenBytes sb =>
        match parseStructMsg sb (match acc.attrs with
          | some st => st.fields
          | none => []) with
        | some fields => responseFromRecords rest { acc with attrs := some ⟨fields⟩ }
        | none => none
      | _ => none
    else if fieldNum = 9 then
      match p with
      | .lenBytes eb =>
        match parseSsEntry eb with
        | some (k, v) => responseFromRecords rest { acc with vSsMap := mapInsert acc.vSsMap k v }
        | none => none
      | _ => none
    else responseFromRecords rest acc

/-- Modelled from the spec: `wire::Response::decode(bytes)` — protobuf
decoding of a response frame (the generated prost decoder is not under
`src/`).  An empty buffer decodes to the default frame. -/
def wireResponseDecode (bs : List Nat) : Except PDecodeError Response :=
  match parseRecords (bs.length + 1) bs with
  | none => .error ⟨"failed to decode Protobuf message"⟩
  | some recs =>
    match responseFromRecords recs Response.default with
    | some r => .ok r
    | none => .error ⟨"failed to decode Protobuf message"⟩

/-- The body of `ScalarValue::decode` in `commands.rs`, factored over the
result of `wire::Response::decode`: a non-empty error string becomes
`ServerError`, an absent payload becomes `VNull`, a present payload is
converted, and a parse failure becomes `DecodeError`. -/
def ScalarValue.decodeParsed (parsed : Except PDecodeError Response) :
    Except CommandError ScalarValue :=
  match parsed with
  | .ok v =>
    if v.err = "" then
      match v.value with
      | some value => .ok value.intoScalar
      | none => .ok .VNull
    else .error (.ServerError v.err)
  | .error e => .error (.DecodeError e)

/-- Mirrors `ScalarValue::decode(bytes)` in `commands.rs` (the `eprintln!`
side effect is not modelled). -/
def ScalarValue.decode (bytes : List Nat) : Except CommandError ScalarValue :=
  ScalarValue.decodeParsed (wireResponseDecode bytes)

/-- Mirrors `commands.rs` `WatchValue`: a scalar plus its fingerprint. -/
structure WatchValue where
  value : ScalarValue
  fingerprint : String
deriving DecidableEq, Repr

/-- The body of `WatchValue::decode_watchvalue` in `commands.rs`, factored
over the result of `wire::Response::decode`: on a successful frame it
requires the `attrs` map, a `fingerprint` entry, a present kind, and that
the kind is a string — in that order — then requires a present payload. -/
def WatchValue.decodeParsedWatch (parsed : Except PDecodeError Response) :
    Except CommandError WatchValue :=
  match parsed with
  | .ok v =>
    if v.err = "" then
      match v.attrs with
      | none => .error (.WatchValueExpectationError "Missing attributes from response")
      | some attrs =>
        match attrs.fields.lookup "fingerprint" with
        | none => .error (.WatchValueExpectationError "Missing fingerprint from attributes")
        | some kindField =>
          match kindField with
          | none => .error (.WatchValueExpectationError "Missing kind from fingerprint attribute")
          | some (ProstKind.stringValue s) =>
            match v.value with
            | none => .error (.WatchValueExpectationError "Missing value from response")
            | some value => .ok ⟨value.intoScalar, s⟩
          | some _ => .error (.WatchValueExpectationError "Fingerprint is not a string")
    else .error (.ServerError v.err)
  | .error e => .error (.DecodeError e)

/-- Mirrors `WatchValue::decode_watchvalue(bytes)` in `commands.rs`. -/
def WatchValue.decode_watchvalue (bytes : List Nat) : Except CommandError WatchValue :=
  WatchValue.decodeParsedWatch (wireResponseDecode bytes)

/-- Mirrors the fields of `CommandStream`/`WatchStream` relevant to the
session layer: remote address, session identifier, and the live socket
(an opaque handle). -/
structure CS where
  host : String
  port : Nat
  id : String
  stream : Nat
deriving DecidableEq, Repr

/-- The `while tries < max_tries` loop of `Reconnectable::reconnect` in
`stream.rs`, with `remaining = max_tries - tries` made structural.  `c`
gives the outcome of the `TcpStream::connect` at each attempt index, `hs`
the outcome of the re-handshake on the updated session.  On a successful
connect the stream field is replaced (`set_stream`) and `handshake()?` is
run; on a failed connect the loop sleeps (not modelled) and retries.
Exhausting the attempts yields `IoError("Max attempts reached")`. -/
def reconnect_go (s : CS) (c : Nat → Option Nat) (hs : CS → Except StreamError Unit) :
    Nat → Nat → CS × Except StreamError Unit
  | _, 0 => (s, .error (.IoError ⟨.other, "Max attempts reached"⟩))
  | tries, remaining + 1 =>
    match c tries with
    | some sock =>
      let s1 := { s with stream := sock }
      match hs s1 with
      | .ok _ => (s1, .ok ())
      | .error e => (s1, .error e)
    | none => reconnect_go s c hs (tries + 1) remaining

/-- Mirrors `Reconnectable::reconnect(max_tries)` in `stream.rs`. -/
def reconnect (s : CS) (c : Nat → Option Nat) (hs : CS → Except StreamError Unit)
    (maxTries : Nat) : CS × Except StreamError Unit :=
  reconnect_go s c hs 0 maxTries

/-- The reply check shared by both handshakes: `VStr("OK")` succeeds, any
other reply becomes `StreamError::IoError` with the formatted message. -/
def handshake_reply_check (reply : ScalarValue) : Except StreamError Unit :=
  if reply = .VStr "OK" then .ok ()
  else .error (.IoError ⟨.other, "Handshake error: " ++ reply.rustDebug⟩)

/-- Mirrors `Stream::handshake` for `CommandStream` in `commandstream.rs`:
executes `HANDSHAKE{client_id, Command}` and checks the reply.  `exec` is
the outcome of `execute_scalar_command` on the wire. -/
def CommandStream.handshake (id : String)
    (exec : Command → Except StreamError ScalarValue) : Except StreamError Unit :=
  match exec (.HANDSHAKE id .Command) with
  | .error e => .error e
  | .ok reply => handshake_reply_check reply

/-- Mirrors `Stream::handshake` for `WatchStream` in `watchstream.rs`:
identical except for the `Watch` execution mode. -/
def WatchStream.handshake (id : String)
    (exec : Command → Except StreamError ScalarValue) : Except StreamError Unit :=
  match exec (.HANDSHAKE id .Watch) with
  | .error e => .error e
  | .ok reply => handshake_reply_check reply

/-- Instrumented outcome of `CommandSender::send_command`: final session
state, the wire message that was serialized, the result, how many socket
writes were attempted, and whether `reconnect` was invoked. -/
structure SendResult where
  state : CS
  wire : WireCommand
  result : Except StreamError Unit
  writeAttempts : Nat
  reconnectInvoked : Bool
deriving DecidableEq, Repr

/-- Mirrors `CommandSender::send_command` in `stream.rs`: one `write_all`;
on failure `reconnect(10)?` then exactly one more `write_all?`.  `w` gives
the outcome of the nth write attempt of the serialized command, `c`/`hs`
drive the inner reconnect.  (The two `eprintln!` calls are not modelled.) -/
def send_command (s : CS) (cmd : Command) (c : Nat → Option Nat)
    (hs : CS → Except StreamError Unit) (w : Nat → Except IoErr Unit) : SendResult :=
  let wire := cmd.intoWire
  match w 0 with
  | .ok _ => ⟨s, wire, .ok (), 1, false⟩
  | .error _ =>
    match reconnect s c hs 10 with
    | (s1, .error e) => ⟨s1, wire, .error e, 1, true⟩
    | (s1, .ok _) =>
      match w 1 with
      | .ok _ => ⟨s1, wire, .ok (), 2, true⟩
      | .error e => ⟨s1, wire, .error (.IoError e), 2, true⟩

/-- Mirrors `ScalarValueReceiver::receive_scalar_value` in `stream.rs`: one
socket read (`rd` is its outcome: the bytes read, empty when the peer
closed), then `ScalarValue::decode` on the slice read; both failures are
surfaced via the `From` conversions into `StreamError`, and no reconnect is
attempted. -/
def receive_scalar_value (rd : Except IoErr (List Nat)) : Except StreamError ScalarValue :=
  match rd with
  | .error e => .error (.IoError e)
  | .ok bytes =>
    match ScalarValue.decode bytes with
    | .ok v => .ok v
    | .error ce => .error (.CommandError ce)

/-- Instrumented trace of `Drop for WatchStream`: which wire message (if
any) was serialized and sent, how many write attempts occurred, whether the
send path invoked `reconnect`, and whether the reply read was reached. -/
structure DropTrace where
  sent : Option WireCommand
  writeAttempts : Nat
  reconnectInvoked : Bool
  replyReadReached : Bool
deriving DecidableEq, Repr

/-- Mirrors `Drop for WatchStream` in `watchstream.rs`: with a fingerprint
present it runs `execute_scalar_command(UNWATCH{key: fingerprint})` —
`send_command` then `receive_scalar_value` — and discards the result
(`_ =`); with no fingerprint it does nothing. -/
def WatchStream.dropRun (fingerprint : Option String) (s : CS) (c : Nat → Option Nat)
    (hs : CS → Except StreamError Unit) (w : Nat → Except IoErr Unit) : DropTrace :=
  match fingerprint with
  | none => ⟨none, 0, false, false⟩
  | some f =>
    let sr := send_command s (.UNWATCH f) c hs w
    ⟨some sr.wire, sr.writeAttempts, sr.reconnectInvoked,
      match sr.result with
      | .ok _ => true
      | .error _ => false⟩

/-- A concrete session state used by witnesses. -/
def cs0 : CS := ⟨"localhost", 7379, "session-0", 3⟩

/-- A connect oracle that fails once and then succeeds (socket handle 5). -/
def connSecondTry (i : Nat) : Option Nat := if i = 1 then some 5 else none

/-- A connect oracle that always fails. -/
def connNever (_ : Nat) : Option Nat := none

/-- A handshake oracle that always succeeds. -/
def hsOk (_ : CS) : Except StreamError Unit := .ok ()

/-- A write oracle whose first attempt fails and later attempts succeed. -/
def writeFailFirst (i : Nat) : Except IoErr Unit :=
  if i = 0 then .error ⟨.other, "broken pipe"⟩ else .ok ()

/-- A connect oracle that succeeds immediately (socket handle 7). -/
def connFirstTry (_ : Nat) : Option Nat := some 7

/-- Unfolding step of the reconnect loop on a failed connect attempt. -/
theorem reconnect_go_succ_of_fail (s : CS) (c : Nat → Option Nat)
    (hs : CS → Except StreamError Unit) (t r : Nat) (hc : c t = none) :
    reconnect_go s c hs t (r + 1) = reconnect_go s c hs (t + 1) r := by
  simp [reconnect_go, hc]

/-- If the first `n` attempts starting at `t` fail and attempt `t + n`
connects (within budget), the loop installs the new socket, re-handshakes,
and succeeds. -/
theorem reconnect_go_reach (s : CS) (c : Nat → Option Nat)
    (hs : CS → Except StreamError Unit) (sock : Nat)
    (hhs : hs { s with stream := sock } = .ok ()) :
    ∀ n t r, n < r → (∀ i, t ≤ i → i < t + n → c i = none) → c (t + n) = some sock →
      reconnect_go s c hs t r = ({ s with stream := sock }, .ok ()) := by
  intro n
  induction n with
  | zero =>
    intro t r hr hfail hc
    match r, hr with
    | r' + 1, _ =>
      rw [Nat.add_zero] at hc
      simp [reconnect_go, hc, hhs]
  | succ m ih =>
    intro t r hr hfail hc
    match r, hr with
    | r' + 1, _ =>
      have hct : c t = none := hfail t le_rfl (by omega)
      rw [reconnect_go_succ_of_fail s c hs t r' hct]
      refine ih (t + 1) r' (by omega) (fun i h1 h2 => hfail i (by omega) (by omega)) ?_
      rw [show t + 1 + m = t + (m + 1) from by omega]
      exact hc

/-- If every attempt in the window fails, the loop exhausts its budget and
reports `IoError("Max attempts reached")` with the session unchanged. -/
theorem reconnect_go_exhaust (s : CS) (c : Nat → Option Nat)
    (hs : CS → Except StreamError Unit) :
    ∀ r t, (∀ i, t ≤ i → i < t + r → c i = none) →
      reconnect_go s c hs t r = (s, .error (.IoError ⟨.other, "Max attempts reached"⟩)) := by
  intro r
  induction r with
  | zero => intro t _; rfl
  | succ r' ih =>
    intro t hfail
    have hct : c t = none := hfail t le_rfl (by omega)
    rw [reconnect_go_succ_of_fail s c hs t r' hct]
    exact ih (t + 1) (fun i h1 h2 => hfail i (by omega) (by omega))

/-- C1: the command encoder produces the fixed per-operation argument
layout: `SET("k","v")` with no option and read-back false encodes to
operation `SET` with arguments `["k","v"]`; with `EX(10)` and read-back true
to `["k","v","EX","10","GET"]`; `EXPIRE("k",5,NX)` to `["k","5","NX"]`;
`EXPIRE("k",5,None)` to `["k","5"]` with no trailing option token;
`EXISTS("a",["b","c"])` to `["a","b","c"]` — for all key, value and operand
strings in these shapes. -/
theorem command_argument_layout :
    (∀ k v : String, (Command.SET k (.Str v) .None false).intoWire = ⟨"SET", [k, v]⟩)
  ∧ (∀ k v : String,
      (Command.SET k (.Str v) (.EX 10) true).intoWire = ⟨"SET", [k, v, "EX", "10", "GET"]⟩)
  ∧ (∀ k : String, (Command.EXPIRE k 5 .NX).intoWire = ⟨"EXPIRE", [k, "5", "NX"]⟩)
  ∧ (∀ k : String, (Command.EXPIRE k 5 .None).intoWire = ⟨"EXPIRE", [k, "5"]⟩)
  ∧ (∀ a b c : String, (Command.EXISTS a [b, c]).intoWire = ⟨"EXISTS", [a, b, c]⟩) :=
  ⟨fun _ _ => rfl, fun _ _ => rfl, fun _ => rfl, fun _ => rfl, fun _ _ _ => rfl⟩

/-- C2: scalar decoding returns `ServerError(message)` on a frame with a
non-empty server error string, a `DecodeError` when the bytes do not parse
as a frame, `VNull` for a successful frame with an absent payload, and the
variant-wise conversion of a present payload (Nil ↦ Null, Integer/String/
Float ↦ the corresponding variants, Bytes ↦ UTF-8-lossy String). -/
theorem decode_scalar_cases (bytes : List Nat) :
    (∀ r : Response, wireResponseDecode bytes = .ok r → r.err ≠ "" →
        ScalarValue.decode bytes = .error (.ServerError r.err))
  ∧ (∀ e : PDecodeError, wireResponseDecode bytes = .error e →
        ScalarValue.decode bytes = .error (.DecodeError e))
  ∧ (∀ r : Response, wireResponseDecode bytes = .ok r → r.err = "" → r.value = none →
        ScalarValue.decode bytes = .ok .VNull)
  ∧ (∀ (r : Response) (w : WireValue), wireResponseDecode bytes = .ok r → r.err = "" →
        r.value = some w → ScalarValue.decode bytes = .ok w.intoScalar)
  ∧ (∀ b, (WireValue.VBytes b).intoScalar = .VStr (fromUtf8Lossy b))
  ∧ (∀ u, (WireValue.VNil u).intoScalar = .VNull)
  ∧ (∀ i, (WireValue.VInt i).intoScalar = .VInt i)
  ∧ (∀ s, (WireValue.VStr s).intoScalar = .VStr s)
  ∧ (∀ q, (WireValue.VFloat q).intoScalar = .VFloat q) := by
  refine ⟨?_, ?_, ?_, ?_, fun b => rfl, fun u => rfl, fun i => rfl, fun s => rfl, fun q => rfl⟩
  · intro r hok hne
    simp [ScalarValue.decode, ScalarValue.decodeParsed, hok, hne]
  · intro e herr
    simp [ScalarValue.decode, ScalarValue.decodeParsed, herr]
  · intro r hok herr hval
    simp [ScalarValue.decode, ScalarValue.decodeParsed, hok, herr, hval]
  · intro r w hok herr hval
    simp [ScalarValue.decode, ScalarValue.decodeParsed, hok, herr, hval]

/-- Witness for `decode_scalar_cases`: the three-byte frame carrying the
server error string `"E"` decodes to `ServerError "E"`. -/
theorem decode_scalar_cases_witness :
    ScalarValue.decode [10, 1, 69] = .error (.ServerError "E") :=
  (decode_scalar_cases [10, 1, 69]).1 ⟨"E", none, none, []⟩ (by decide) (by decide)

/-- C3 (counterexample): a handshake reply of `VNull` does not yield a
`HandshakeError` value carrying the reply — the session layer's error type
(`StreamError`, mirrored from `errors.rs`) has no such constructor — it
yields `StreamError::IoError` whose message embeds the Debug rendering of
the unexpected value. -/
theorem handshake_null_reply_yields_io_error :
    CommandStream.handshake "i" (fun _ => .ok .VNull) =
      .error (.IoError ⟨.other, "Handshake error: VNull"⟩) := by
  decide

/-- C3 (amended): each handshake sends `HANDSHAKE [id, mode-tag]` and
succeeds exactly when the reply is the scalar string `"OK"`; any other
reply yields `StreamError::IoError` with message
`"Handshake error: " ++ {value:?}`; an execute failure propagates
unchanged.  The session state is not modified by the failure. -/
theorem handshake_contract :
    (∀ (id : String) (exec : Command → Except StreamError ScalarValue),
        CommandStream.handshake id exec = .ok () ↔
          exec (.HANDSHAKE id .Command) = .ok (.VStr "OK"))
  ∧ (∀ (id : String) (exec : Command → Except StreamError ScalarValue) (v : ScalarValue),
        exec (.HANDSHAKE id .Command) = .ok v → v ≠ .VStr "OK" →
          CommandStream.handshake id exec =
            .error (.IoError ⟨.other, "Handshake error: " ++ v.rustDebug⟩))
  ∧ (∀ (id : String) (exec : Command → Except StreamError ScalarValue) (e : StreamError),
        exec (.HANDSHAKE id .Command) = .error e → CommandStream.handshake id exec = .error e)
  ∧ (∀ (id : String) (exec : Command → Except StreamError ScalarValue),
        WatchStream.handshake id exec = .ok () ↔
          exec (.HANDSHAKE id .Watch) = .ok (.VStr "OK"))
  ∧ (∀ (id : String) (exec : Command → Except StreamError ScalarValue) (v : ScalarValue),
        exec (.HANDSHAKE id .Watch) = .ok v → v ≠ .VStr "OK" →
          WatchStream.handshake id exec =
            .error (.IoError ⟨.other, "Handshake error: " ++ v.rustDebug⟩))
  ∧ (∀ id : String, (Command.HANDSHAKE id .Command).intoWire = ⟨"HANDSHAKE", [id, "command"]⟩)
  ∧ (∀ id : String, (Command.HANDSHAKE id .Watch).intoWire = ⟨"HANDSHAKE", [id, "watch"]⟩) := by
  refine ⟨?_, ?_, ?_, ?_, ?_, fun id => rfl, fun id => rfl⟩
  · intro id exec
    unfold CommandStream.handshake
    cases h : exec (.HANDSHAKE id .Command) with
    | error e => simp [h]
    | ok reply =>
      simp only [handshake_reply_check]
      by_cases hr : reply = .VStr "OK" <;> simp [hr]
  · intro id exec v hv hne
    unfold CommandStream.handshake
    rw [hv]
    simp [handshake_reply_check, hne]
  · intro id exec e he
    unfold CommandStream.handshake
    rw [he]
  · intro id exec
    unfold WatchStream.handshake
    cases h : exec (.HANDSHAKE id .Watch) with
    | error e => simp [h]
    | ok reply =>
      simp only [handshake_reply_check]
      by_cases hr : reply = .VStr "OK" <;> simp [hr]
  · intro id exec v hv hne
    unfold WatchStream.handshake
    rw [hv]
    simp [handshake_reply_check, hne]

/-- Witness for `handshake_contract`: a reply of `VStr "NO"` on a watch
session fails with the formatted `IoError`. -/
theorem handshake_contract_witness :
    WatchStream.handshake "a" (fun _ => .ok (.VStr "NO")) =
      .error (.IoError ⟨.other, "Handshake error: " ++ (ScalarValue.VStr "NO").rustDebug⟩) :=
  handshake_contract.2.2.2.2.1 "a" (fun _ => .ok (.VStr "NO")) (.VStr "NO") rfl (by decide)

/-- C4 (counterexample): with a connect oracle that always fails and a
budget of one attempt, `reconnect` returns `StreamError::IoError` with the
message `"Max attempts reached"` — not a `ConnectionError("failed to
reconnect")`: the session layer's error type has no `ConnectionError`
constructor and the message differs. -/
theorem reconnect_exhausted_error_value :
    reconnect cs0 connNever hsOk 1 =
      (cs0, .error (.IoError ⟨.other, "Max attempts reached"⟩))
    ∧ "Max attempts reached" ≠ "failed to reconnect" :=
  ⟨rfl, by decide⟩

/-- C4 (amended): if the connect oracle fails on the first `k < max_tries`
attempts, succeeds on attempt `k`, and the re-handshake on the new socket
succeeds, then `reconnect(max_tries)` succeeds with the new socket installed
and the session identifier unchanged; if all `max_tries` attempts fail,
`reconnect` returns `StreamError::IoError("Max attempts reached")`. -/
theorem reconnect_budget (s : CS) (c : Nat → Option Nat)
    (hs : CS → Except StreamError Unit) (k maxTries sock : Nat) :
    (k < maxTries → (∀ i, i < k → c i = none) → c k = some sock →
        hs { s with stream := sock } = .ok () →
        reconnect s c hs maxTries = ({ s with stream := sock }, .ok ())
      ∧ ({ s with stream := sock } : CS).id = s.id)
  ∧ ((∀ i, i < maxTries → c i = none) →
        reconnect s c hs maxTries = (s, .error (.IoError ⟨.other, "Max attempts reached"⟩))) := by
  constructor
  · intro hk hfail hc hhs
    refine ⟨?_, rfl⟩
    unfold reconnect
    exact reconnect_go_reach s c hs sock hhs k 0 maxTries hk
      (fun i _ h2 => hfail i (by omega)) (by simpa using hc)
  · intro hfail
    unfold reconnect
    exact reconnect_go_exhaust s c hs maxTries 0 (fun i _ h2 => hfail i (by omega))

/-- Witness for `reconnect_budget`: one failed attempt, then success on the
second of three allowed attempts, with the identifier preserved. -/
theorem reconnect_budget_witness :
    reconnect cs0 connSecondTry hsOk 3 = ({ cs0 with stream := 5 }, .ok ())
      ∧ ({ cs0 with stream := 5 } : CS).id = cs0.id :=
  (reconnect_budget cs0 connSecondTry hsOk 1 3 5).1 (by decide)
    (fun i hi => by
      have h0 : i = 0 := by omega
      subst h0
      rfl) rfl rfl

/-- C5: `send_command` performs a single write attempt when the first write
succeeds (no reconnect); on a write failure it invokes `reconnect(10)` and —
when the reconnect succeeds — retries the write exactly once more,
surfacing that retry's outcome; a failed reconnect is surfaced with no
second write; never more than two writes occur.  `receive_scalar_value`
surfaces every read or decode failure directly, with no retry and no
reconnect. -/
theorem send_receive_retry_policy :
    (∀ (s : CS) (cmd : Command) (c : Nat → Option Nat)
        (hs : CS → Except StreamError Unit) (w : Nat → Except IoErr Unit),
        w 0 = .ok () → send_command s cmd c hs w = ⟨s, cmd.intoWire, .ok (), 1, false⟩)
  ∧ (∀ (s : CS) (cmd : Command) (c : Nat → Option Nat)
        (hs : CS → Except StreamError Unit) (w : Nat → Except IoErr Unit) (e : IoErr),
        w 0 = .error e → (send_command s cmd c hs w).reconnectInvoked = true)
  ∧ (∀ (s : CS) (cmd : Command) (c : Nat → Option Nat)
        (hs : CS → Except StreamError Unit) (w : Nat → Except IoErr Unit)
        (e : IoErr) (s1 : CS),
        w 0 = .error e → reconnect s c hs 10 = (s1, .ok ()) →
          (send_command s cmd c hs w).writeAttempts = 2
        ∧ (w 1 = .ok () → send_command s cmd c hs w = ⟨s1, cmd.intoWire, .ok (), 2, true⟩)
        ∧ (∀ e1 : IoErr, w 1 = .error e1 →
            send_command s cmd c hs w = ⟨s1, cmd.intoWire, .error (.IoError e1), 2, true⟩))
  ∧ (∀ (s : CS) (cmd : Command) (c : Nat → Option Nat)
        (hs : CS → Except StreamError Unit) (w : Nat → Except IoErr Unit)
        (e : IoErr) (re : StreamError) (s1 : CS),
        w 0 = .error e → reconnect s c hs 10 = (s1, .error re) →
          send_command s cmd c hs w = ⟨s1, cmd.intoWire, .error re, 1, true⟩)
  ∧ (∀ (s : CS) (cmd : Command) (c : Nat → Option Nat)
        (hs : CS → Except StreamError Unit) (w : Nat → Except IoErr Unit),
        (send_command s cmd c hs w).writeAttempts ≤ 2)
  ∧ (∀ e : IoErr, receive_scalar_value (.error e) = .error (.IoError e))
  ∧ (∀ (bytes : List Nat) (ce : CommandError), ScalarValue.decode bytes = .error ce →
        receive_scalar_value (.ok bytes) = .error (.CommandError ce))
  ∧ (∀ (bytes : List Nat) (v : ScalarValue), ScalarValue.decode bytes = .ok v →
        receive_scalar_value (.ok bytes) = .ok v) := by
  refine ⟨?_, ?_, ?_, ?_, ?_, fun e => rfl, ?_, ?_⟩
  · intro s cmd c hs w hw
    simp [send_command, hw]
  · intro s cmd c hs w e hw
    simp only [send_command, hw]
    rcases hrec : reconnect s c hs 10 with ⟨s1, res⟩
    cases res with
    | error re => simp
    | ok u => cases hw1 : w 1 with
      | ok u1 => simp [hw1]
      | error e1 => simp [hw1]
  · intro s cmd c hs w e s1 hw hrec
    refine ⟨?_, ?_, ?_⟩
    · simp only [send_command, hw, hrec]
      cases hw1 : w 1 with
      | ok u1 => simp [hw1]
      | error e1 => simp [hw1]
    · intro hw1
      simp [send_command, hw, hrec, hw1]
    · intro e1 hw1
      simp [send_command, hw, hrec, hw1]
  · intro s cmd c hs w e re s1 hw hrec
    simp [send_command, hw, hrec]
  · intro s cmd c hs w
    simp only [send_command]
    cases hw : w 0 with
    | ok u => simp
    | error e =>
      rcases hrec : reconnect s c hs 10 with ⟨s1, res⟩
      cases res with
      | error re => simp
      | ok u => cases hw1 : w 1 with
        | ok u1 => simp [hw1]
        | error e1 => simp [hw1]
  · intro bytes ce hd
    simp [receive_scalar_value, hd]
  · intro bytes v hd
    simp [receive_scalar_value, hd]

/-- Witness for `send_receive_retry_policy`: an immediately successful
write sends `PING` in one attempt with no reconnect. -/
theorem send_receive_retry_policy_witness :
    send_command cs0 .PING connFirstTry hsOk (fun _ => .ok ()) =
      ⟨cs0, ⟨"PING", []⟩, .ok (), 1, false⟩ :=
  send_receive_retry_policy.1 cs0 .PING connFirstTry hsOk (fun _ => .ok ()) rfl

/-- C6 (counterexample): a successful frame with a string fingerprint but an
absent payload does not decode to a watch event carrying `VNull` — the
watch decoder, unlike scalar decoding, rejects it with the
`"Missing value from response"` expectation error. -/
theorem watch_decode_missing_value_errors :
    WatchValue.decodeParsedWatch
        (.ok ⟨"", none, some ⟨[("fingerprint", some (.stringValue "f"))]⟩, []⟩) =
      .error (.WatchValueExpectationError "Missing value from response")
    ∧ WatchValue.decodeParsedWatch
        (.ok ⟨"", none, some ⟨[("fingerprint", some (.stringValue "f"))]⟩, []⟩) ≠
      .ok ⟨.VNull, "f"⟩ := by
  constructor
  · rfl
  · decide

/-- C6 (amended): watch-mode decoding of a successful (empty-error) frame
requires the `attrs` map, a `fingerprint` entry, a present kind, and a
string kind, failing with the corresponding malformed-response error
otherwise; when the fingerprint is a string and a payload is present, the
payload is decoded exactly as scalar decoding decodes a present payload,
paired with the fingerprint; an absent payload is rejected with
`"Missing value from response"` (not mapped to `VNull`); parse failures and
server errors are surfaced as in scalar decoding. -/
theorem watch_decode_fingerprint_contract :
    (∀ r : Response, r.err = "" → r.attrs = none →
        WatchValue.decodeParsedWatch (.ok r) =
          .error (.WatchValueExpectationError "Missing attributes from response"))
  ∧ (∀ (r : Response) (a : ProstStruct), r.err = "" → r.attrs = some a →
        a.fields.lookup "fingerprint" = none →
        WatchValue.decodeParsedWatch (.ok r) =
          .error (.WatchValueExpectationError "Missing fingerprint from attributes"))
  ∧ (∀ (r : Response) (a : ProstStruct), r.err = "" → r.attrs = some a →
        a.fields.lookup "fingerprint" = some none →
        WatchValue.decodeParsedWatch (.ok r) =
          .error (.WatchValueExpectationError "Missing kind from fingerprint attribute"))
  ∧ (∀ (r : Response) (a : ProstStruct) (k : ProstKind), r.err = "" → r.attrs = some a →
        a.fields.lookup "fingerprint" = some (some k) → (∀ str, k ≠ .stringValue str) →
        WatchValue.decodeParsedWatch (.ok r) =
          .error (.WatchValueExpectationError "Fingerprint is not a string"))
  ∧ (∀ (r : Response) (a : ProstStruct) (str : String), r.err = "" → r.attrs = some a →
        a.fields.lookup "fingerprint" = some (some (.stringValue str)) → r.value = none →
        WatchValue.decodeParsedWatch (.ok r) =
          .error (.WatchValueExpectationError "Missing value from response"))
  ∧ (∀ (r : Response) (a : ProstStruct) (str : String) (w : WireValue), r.err = "" →
        r.attrs = some a → a.fields.lookup "fingerprint" = some (some (.stringValue str)) →
        r.value = some w →
        WatchValue.decodeParsedWatch (.ok r) = .ok ⟨w.intoScalar, str⟩
      ∧ ScalarValue.decodeParsed (.ok r) = .ok w.intoScalar)
  ∧ (∀ e : PDecodeError, WatchValue.decodeParsedWatch (.error e) = .error (.DecodeError e))
  ∧ (∀ r : Response, r.err ≠ "" →
        WatchValue.decodeParsedWatch (.ok r) = .error (.ServerError r.err)) := by
  refine ⟨?_, ?_, ?_, ?_, ?_, ?_, fun e => rfl, ?_⟩
  · intro r herr hattrs
    simp [WatchValue.decodeParsedWatch, herr, hattrs]
  · intro r a herr hattrs hlook
    simp [WatchValue.decodeParsedWatch, herr, hattrs, hlook]
  · intro r a herr hattrs hlook
    simp [WatchValue.decodeParsedWatch, herr, hattrs, hlook]
  · intro r a k herr hattrs hlook hk
    cases k with
    | stringValue s => exact absurd rfl (hk s)
    | nullValue n => simp [WatchValue.decodeParsedWatch, herr, hattrs, hlook]
    | numberValue q => simp [WatchValue.decodeParsedWatch, herr, hattrs, hlook]
    | boolValue b => simp [WatchValue.decodeParsedWatch, herr, hattrs, hlook]
    | structValue raw => simp [WatchValue.decodeParsedWatch, herr, hattrs, hlook]
    | listValue raw => simp [WatchValue.decodeParsedWatch, herr, hattrs, hlook]
  · intro r a str herr hattrs hlook hval
    simp [WatchValue.decodeParsedWatch, herr, hattrs, hlook, hval]
  · intro r a str w herr hattrs hlook hval
    constructor
    · simp [WatchValue.decodeParsedWatch, herr, hattrs, hlook, hval]
    · simp [ScalarValue.decodeParsed, herr, hval]
  · intro r herr
    simp [WatchValue.decodeParsedWatch, herr]

/-- Witness for `watch_decode_fingerprint_contract`: a successful frame
carrying payload `VInt 7` and fingerprint `"fp"` decodes to the watch event
`⟨VInt 7, "fp"⟩`, the payload exactly as scalar decoding maps it. -/
theorem watch_decode_fingerprint_contract_witness :
    WatchValue.decodeParsedWatch
        (.ok ⟨"", some (.VInt 7), some ⟨[("fingerprint", some (.stringValue "fp"))]⟩, []⟩) =
      .ok ⟨.VInt 7, "fp"⟩ :=
  (watch_decode_fingerprint_contract.2.2.2.2.2.1
    ⟨"", some (.VInt 7), some ⟨[("fingerprint", some (.stringValue "fp"))]⟩, []⟩
    ⟨[("fingerprint", some (.stringValue "fp"))]⟩ "fp" (.VInt 7) rfl rfl (by decide) rfl).1

/-- C7 (counterexample): dropping a watch stream whose fingerprint is set,
in an environment where the first socket write fails, does invoke
`reconnect` during teardown (via the ordinary `send_command` path) and
attempts the `UNWATCH` write twice — contradicting the claim that exactly
one request is issued and no reconnect is attempted. -/
theorem watch_drop_reconnects_on_write_failure :
    WatchStream.dropRun (some "k") cs0 connFirstTry hsOk writeFailFirst =
      ⟨some ⟨"UNWATCH", ["k"]⟩, 2, true, true⟩ := by
  decide

/-- C7 (amended): dropping a watch stream with fingerprint `f` set runs one
`UNWATCH(f)` execute over its socket with the result discarded (the trace
carries no error); when the first write succeeds that is exactly one write
attempt with no reconnect; when the first write fails the ordinary send
path (reconnect budget 10, then one retry) runs during teardown, so at most
two write attempts ever occur; with no fingerprint nothing is sent. -/
theorem watch_drop_teardown (f : String) (s : CS) (c : Nat → Option Nat)
    (hs : CS → Except StreamError Unit) (w : Nat → Except IoErr Unit) :
    ((WatchStream.dropRun (some f) s c hs w).sent = some ⟨"UNWATCH", [f]⟩)
  ∧ (w 0 = .ok () →
      WatchStream.dropRun (some f) s c hs w = ⟨some ⟨"UNWATCH", [f]⟩, 1, false, true⟩)
  ∧ ((WatchStream.dropRun (some f) s c hs w).writeAttempts ≤ 2)
  ∧ (WatchStream.dropRun none s c hs w = ⟨none, 0, false, false⟩) := by
  refine ⟨?_, ?_, ?_, rfl⟩
  · simp only [WatchStream.dropRun, send_command]
    cases hw : w 0 with
    | ok u => simp [Command.intoWire]
    | error e =>
      rcases hrec : reconnect s c hs 10 with ⟨s1, res⟩
      cases res with
      | error re => simp [Command.intoWire]
      | ok u => cases hw1 : w 1 with
        | ok u1 => simp [hw1, Command.intoWire]
        | error e1 => simp [hw1, Command.intoWire]
  · intro hw
    simp [WatchStream.dropRun, send_command, hw, Command.intoWire]
  · simp only [WatchStream.dropRun, send_command]
    cases hw : w 0 with
    | ok u => simp
    | error e =>
      rcases hrec : reconnect s c hs 10 with ⟨s1, res⟩
      cases res with
      | error re => simp
      | ok u => cases hw1 : w 1 with
        | ok u1 => simp [hw1]
        | error e1 => simp [hw1]

/-- Witness for `watch_drop_teardown`: with an immediately successful
write, dropping with fingerprint `"k"` sends `UNWATCH ["k"]` once, with no
reconnect, and reaches the reply read. -/
theorem watch_drop_teardown_witness :
    WatchStream.dropRun (some "k") cs0 connFirstTry hsOk (fun _ => .ok ()) =
      ⟨some ⟨"UNWATCH", ["k"]⟩, 1, false, true⟩ :=
  (watch_drop_teardown "k" cs0 connFirstTry hsOk (fun _ => .ok ())).2.1 rfl

/-- C8 (counterexample): the `From<u64>` conversion does not preserve every
input: the `u64` value `2^63` converts via `as i64` to the Integer variant
holding `-2^63`, not `2^63`. -/
theorem u64_widening_wraps :
    ScalarValue.fromIntValue ((2 : Int) ^ 63) = .VInt (-((2 : Int) ^ 63))
    ∧ ¬(-((2 : Int) ^ 63) = (2 : Int) ^ 63) := by
  constructor
  · decide
  · decide

/-- C8 (amended): the integer conversions into `ScalarValue` (all through
`value as i64`) preserve every value representable in `i64` — covering all
of `i8`/`i16`/`i32`/`i64`/`u8`/`u16`/`u32` and `u64` values below `2^63` —
while `u64` values at or above `2^63` wrap two's-complement to `v - 2^64`;
the float conversions (`f32`/`f64`, widened to 64-bit) preserve the denoted
value exactly. -/
theorem numeric_widening_preserves (v : Int) (q : Rat) :
    (-(2 : Int) ^ 63 ≤ v → v < (2 : Int) ^ 63 → ScalarValue.fromIntValue v = .VInt v)
  ∧ ((2 : Int) ^ 63 ≤ v → v < (2 : Int) ^ 64 →
      ScalarValue.fromIntValue v = .VInt (v - (2 : Int) ^ 64))
  ∧ ScalarValue.fromFloatValue q = .VFloat q := by
  have e64 : (2 : Int) ^ 64 = 18446744073709551616 := by norm_num
  have e63 : (2 : Int) ^ 63 = 9223372036854775808 := by norm_num
  refine ⟨?_, ?_, rfl⟩
  · intro h1 h2
    rw [e63] at h2
    rw [e63] at h1
    simp only [ScalarValue.fromIntValue, as_i64, e63, e64]
    congr 1
    split
    · omega
    · omega
  · intro h1 h2
    rw [e63] at h1
    rw [e64] at h2
    simp only [ScalarValue.fromIntValue, as_i64, e63, e64]
    congr 1
    split
    · omega
    · omega

/-- Witness for `numeric_widening_preserves`: the `i8` value `-5` converts
to `VInt (-5)` and the float value `3/2` converts to `VFloat (3/2)`. -/
theorem numeric_widening_preserves_witness :
    ScalarValue.fromIntValue (-5) = .VInt (-5)
    ∧ ScalarValue.fromFloatValue (3 / 2 : Rat) = .VFloat (3 / 2 : Rat) :=
  ⟨(numeric_widening_preserves (-5) 0).1 (by norm_num) (by norm_num),
   (numeric_widening_preserves 0 (3 / 2 : Rat)).2.2⟩

/-- C9: scalar decoding of the empty byte string returns `Ok VNull` (an
empty protobuf buffer decodes to the default frame: no error, no payload),
so a receive whose socket read returns zero bytes — the peer closed the
connection — reports the value `VNull` rather than a connection or decode
error. -/
theorem empty_read_decodes_to_null :
    ScalarValue.decode [] = .ok .VNull
  ∧ (∀ rd : Except IoErr (List Nat), rd = .ok [] → receive_scalar_value rd = .ok .VNull) := by
  refine ⟨rfl, ?_⟩
  intro rd h
  subst h
  rfl

/-- Witness for `empty_read_decodes_to_null`: a zero-byte read yields
`VNull` at the receive interface. -/
theorem empty_read_decodes_to_null_witness :
    receive_scalar_value (.ok []) = .ok .VNull :=
  empty_read_decodes_to_null.2 (.ok []) rfl

/-- C10: the SET encoding is not injective on the value operand: the
distinct inputs `Float 1.0` and `Int 1` produce identical wire messages for
every key, option and read-back flag, because the float is rendered through
the default decimal display, which omits the fractional part of an integral
float. -/
theorem set_value_encoding_not_injective :
    SetInput.Float 1 ≠ SetInput.Int 1
  ∧ ∀ (k : String) (opt : SetOption) (g : Bool),
      (Command.SET k (.Float 1) opt g).intoWire = (Command.SET k (.Int 1) opt g).intoWire := by
  refine ⟨by decide, ?_⟩
  intro k opt g
  rfl
